import Mathlib

set_option maxRecDepth 100000

/-!
A verification development for the `pi-glm-image-summary` extension
(`src/index.ts`).  The TypeScript source is shallowly embedded below:

* `detectImageMimeType` mirrors the `readOps.detectImageMimeType` helper;
* `JValue`/`parseJson` model JavaScript's `JSON.parse` (a JSON value tree
  and a fuel-indexed recursive-descent reader);
* `normalize` mirrors the response-normalisation block of the overridden
  read tool (lines 149-172), including the inner `try`/`catch` that turns
  any thrown `TypeError` during extraction into the raw-text fallback;
* `stepEvent`/`runInvoker` model the subprocess promise (lines 91-147) as
  a state machine over the asynchronous events delivered before the
  `await` resumes: stdout/stderr data chunks, a spawn error, the abort
  signal, and the close event.  A promise settles at most once, the abort
  listener is removed on close or after firing once, and the post-await
  `signal?.aborted` check turns an already-resolved run into an abort;
* `routeExecute` mirrors the overridden `execute` (lines 65-193);
* `analyzeImageHandler` mirrors the `analyze-image` command handler
  (lines 199-308).
-/

namespace PiGlm

/-! ## JavaScript string primitives

The JavaScript string operations the source relies on (`split(".")`,
`toLowerCase`, `trim`, `startsWith`, `join`) are embedded as structurally
recursive functions over the character list of a `String`, so that every
definition evaluates by kernel reduction. -/

/-- `split(".")` on a character list: JavaScript's split with a one-char
separator; splitting the empty string yields `[""]`. -/
def splitDotChars : List Char → List (List Char)
  | [] => [[]]
  | c :: cs =>
    let r := splitDotChars cs
    if c = '.' then [] :: r
    else
      match r with
      | [] => [[c]]
      | h :: t => (c :: h) :: t

/-- JavaScript `path.split(".")`. -/
def jsSplitDot (s : String) : List String :=
  (splitDotChars s.data).map String.mk

/-- JavaScript `toLowerCase` (ASCII range, the one relevant here). -/
def lowerStr (s : String) : String :=
  String.mk (s.data.map Char.toLower)

/-- Whitespace stripped by JavaScript `trim` (the ASCII portion). -/
def jsWsChar (c : Char) : Bool :=
  c = ' ' || c = '\t' || c = '\n' || c = '\r' || c = '\x0b' || c = '\x0c'

/-- JavaScript `trim`: drop whitespace from both ends. -/
def trimStr (s : String) : String :=
  String.mk (((s.data.dropWhile jsWsChar).reverse.dropWhile jsWsChar).reverse)

/-- Whether a path string is absolute (starts with `/`). -/
def startsWithSlash (s : String) : Bool :=
  match s.data with
  | '/' :: _ => true
  | _ => false

/-- JavaScript `array.join("\n")` on already-stringified elements. -/
def joinWithNewline : List String → String
  | [] => ""
  | [x] => x
  | x :: xs => x ++ "\n" ++ joinWithNewline xs

/-- JavaScript `s.endsWith(t)`. -/
def endsWithStr (s t : String) : Bool :=
  List.isSuffixOf t.data s.data

/-! ## Image classifier (`detectImageMimeType`, src/index.ts lines 51-59) -/

/-- The closed set of supported image extensions from line 54. -/
def supportedExts : List String := ["jpg", "jpeg", "png", "gif", "webp"]

/-- Embedding of `readOps.detectImageMimeType`: split the path on `"."`,
take the last fragment (JavaScript's `split(".").pop()` returns the whole
string when no dot occurs), lowercase it, and map it to a MIME type when
it is a supported extension (`jpg` normalises to `image/jpeg`). -/
def detectImageMimeType (absolutePath : String) : Option String :=
  let ext := lowerStr ((jsSplitDot absolutePath).getLastD "")
  if ext != "" && supportedExts.contains ext then
    some ("image/" ++ (if ext = "jpg" then "jpeg" else ext))
  else
    none

/-- The classifier as the specification describes it: the extension is the
part after the last dot of the path, and only exists when the path actually
contains a dot; a path with an absent extension is never an image.  This
definition follows the spec's words and is compared against
`detectImageMimeType`, which is translated from the source. -/
def specClassify (path : String) : Option String :=
  let parts := jsSplitDot path
  if 2 ≤ parts.length then
    let ext := lowerStr (parts.getLastD "")
    if ext != "" && supportedExts.contains ext then
      some ("image/" ++ (if ext = "jpg" then "jpeg" else ext))
    else
      none
  else
    none

/-! ## Execution context and path resolution -/

/-- The parts of the host's execution context the extension reads:
`ctx.model?.id` (absent model modelled as `none`) and `ctx.cwd`. -/
structure ExecutionContext where
  modelId : Option String
  cwd : String
deriving DecidableEq

/-- Line 71: `currentModel?.id === "glm-4.7" || currentModel?.id === "glm-4.7-long"`. -/
def isGlm4_7 (ctx : ExecutionContext) : Bool :=
  ctx.modelId == some "glm-4.7" || ctx.modelId == some "glm-4.7-long"

/-- Model of node's `path.resolve(cwd, p)` as used here: an absolute path is
kept, a relative one is appended to the working directory. -/
def resolvePath (cwd p : String) : String :=
  if startsWithSlash p then p else cwd ++ "/" ++ p

/-! ## JSON values and a model of `JSON.parse` -/

/-- JSON value trees, the possible results of `JSON.parse`. -/
inductive JValue where
  | jnull
  | jbool (b : Bool)
  | jnum (lexeme : String)
  | jstr (s : String)
  | jarr (elems : List JValue)
  | jobj (fields : List (String × JValue))

/-- JSON insignificant whitespace. -/
def jsonWs (c : Char) : Bool :=
  c = ' ' || c = '\t' || c = '\n' || c = '\r'

def skipWs : List Char → List Char
  | [] => []
  | c :: cs => if jsonWs c then skipWs cs else c :: cs

def escChar (c : Char) : Option Char :=
  if c = '"' then some '"'
  else if c = '\\' then some '\\'
  else if c = '/' then some '/'
  else if c = 'b' then some (Char.ofNat 8)
  else if c = 'f' then some (Char.ofNat 12)
  else if c = 'n' then some '\n'
  else if c = 'r' then some '\r'
  else if c = 't' then some '\t'
  else none

def hexDigitVal (c : Char) : Option Nat :=
  if '0' ≤ c ∧ c ≤ '9' then some (c.toNat - 48)
  else if 'a' ≤ c ∧ c ≤ 'f' then some (c.toNat - 87)
  else if 'A' ≤ c ∧ c ≤ 'F' then some (c.toNat - 55)
  else none

/-- Read the body of a JSON string literal (the opening quote already
consumed), returning the decoded characters and the rest of the input. -/
def parseStrChars : List Char → Option (List Char × List Char)
  | [] => none
  | '"' :: rest => some ([], rest)
  | '\\' :: 'u' :: a :: b :: c :: d :: rest => do
    let ha ← hexDigitVal a
    let hb ← hexDigitVal b
    let hc ← hexDigitVal c
    let hd ← hexDigitVal d
    let (cs, r) ← parseStrChars rest
    pure (Char.ofNat (((ha * 16 + hb) * 16 + hc) * 16 + hd) :: cs, r)
  | '\\' :: e :: rest => do
    let c ← escChar e
    let (cs, r) ← parseStrChars rest
    pure (c :: cs, r)
  | c :: rest =>
    if c.toNat < 32 then none
    else do
      let (cs, r) ← parseStrChars rest
      pure (c :: cs, r)

def isDigitCh (c : Char) : Bool := '0' ≤ c && c ≤ '9'

def spanDigits : List Char → (List Char × List Char)
  | [] => ([], [])
  | c :: cs =>
    if isDigitCh c then
      let (ds, r) := spanDigits cs
      (c :: ds, r)
    else ([], c :: cs)

def parseExpPart (lex : List Char) (cs : List Char) : Option (List Char × List Char) :=
  match cs with
  | e :: rest =>
    if e = 'e' || e = 'E' then
      let (sgn, r2) :=
        match rest with
        | s :: r => if s = '+' || s = '-' then ([s], r) else ([], rest)
        | [] => ([], rest)
      match spanDigits r2 with
      | ([], _) => none
      | (ds, r3) => some (lex ++ e :: (sgn ++ ds), r3)
    else some (lex, cs)
  | [] => some (lex, cs)

def parseFracPart (lex : List Char) (cs : List Char) : Option (List Char × List Char) :=
  match cs with
  | '.' :: rest =>
    match spanDigits rest with
    | ([], _) => none
    | (ds, r) => some (lex ++ '.' :: ds, r)
  | _ => some (lex, cs)

def numTail (lex : List Char) (cs : List Char) : Option (List Char × List Char) := do
  let (lex2, cs2) ← parseFracPart lex cs
  parseExpPart lex2 cs2

/-- JSON number grammar: optional minus, `0` or a nonzero-led digit run,
optional fraction, optional exponent. -/
def parseNumber (cs : List Char) : Option (List Char × List Char) :=
  let (sgn, cs1) :=
    match cs with
    | '-' :: r => (['-'], r)
    | _ => (([] : List Char), cs)
  match cs1 with
  | [] => none
  | c :: r =>
    if c = '0' then
      numTail (sgn ++ [c]) r
    else if isDigitCh c then
      let (ds, r2) := spanDigits r
      numTail (sgn ++ c :: ds) r2
    else none

mutual

def parseVal : Nat → List Char → Option (JValue × List Char)
  | 0, _ => none
  | fuel + 1, input =>
    match skipWs input with
    | '"' :: rest =>
      (parseStrChars rest).map (fun p => (JValue.jstr (String.mk p.1), p.2))
    | '\x7b' :: rest =>
      (match skipWs rest with
       | '\x7d' :: r => some (JValue.jobj [], r)
       | cs => (parseMembers fuel cs).map (fun p => (JValue.jobj p.1, p.2)))
    | '[' :: rest =>
      (match skipWs rest with
       | ']' :: r => some (JValue.jarr [], r)
       | cs => (parseElems fuel cs).map (fun p => (JValue.jarr p.1, p.2)))
    | 't' :: 'r' :: 'u' :: 'e' :: r => some (JValue.jbool true, r)
    | 'f' :: 'a' :: 'l' :: 's' :: 'e' :: r => some (JValue.jbool false, r)
    | 'n' :: 'u' :: 'l' :: 'l' :: r => some (JValue.jnull, r)
    | cs => (parseNumber cs).map (fun p => (JValue.jnum (String.mk p.1), p.2))

def parseMembers : Nat → List Char → Option (List (String × JValue) × List Char)
  | 0, _ => none
  | fuel + 1, input =>
    match skipWs input with
    | '"' :: rest => do
      let (key, r1) ← parseStrChars rest
      match skipWs r1 with
      | ':' :: r2 => do
        let (v, r3) ← parseVal fuel r2
        (match skipWs r3 with
         | ',' :: r4 => do
           let (fs, r5) ← parseMembers fuel r4
           pure ((String.mk key, v) :: fs, r5)
         | '\x7d' :: r4 => pure ([(String.mk key, v)], r4)
         | _ => none)
      | _ => none
    | _ => none

def parseElems : Nat → List Char → Option (List JValue × List Char)
  | 0, _ => none
  | fuel + 1, input => do
    let (v, r1) ← parseVal fuel input
    match skipWs r1 with
    | ',' :: r2 => do
      let (vs, r3) ← parseElems fuel r2
      pure (v :: vs, r3)
    | ']' :: r2 => pure ([v], r2)
    | _ => none

end

/-- Model of `JSON.parse`: parse one value, then require only whitespace to
remain.  `none` models a thrown `SyntaxError`. -/
def parseJson (s : String) : Option JValue :=
  match parseVal (s.length + 1) s.data with
  | some (v, rest) => if skipWs rest = [] then some v else none
  | none => none

/-! ## Response normaliser (src/index.ts lines 149-172)

JavaScript semantics needed by the extraction block:

* a property read on `null` throws a `TypeError` (modelled as
  `Except.error ()`; the surrounding `catch` turns it into the raw-text
  fallback), a property read on any other non-object produces `undefined`
  (modelled as `Option.none`), and on an object it looks the key up with
  the last duplicate winning, as `JSON.parse` assigns keys in order;
* `findLast` scans from the end of the array, so predicate evaluation on
  elements after the match happens first and a throw there aborts;
* `filter` runs its predicate over all elements left to right;
* `join("\n")` stringifies elements, with `null`/`undefined` becoming the
  empty string, arrays their comma-joined form, and plain objects
  `"[object Object]"`;
* `if (x)` truthiness: `null`, `false`, `0`, and `""` are falsy, every
  array and object is truthy.
-/

/-- Whether a JSON number lexeme denotes zero: all mantissa digits are 0. -/
def jnumIsZero (s : String) : Bool :=
  (s.data.takeWhile (fun c => c ≠ 'e' && c ≠ 'E')).all
    (fun c => !('1' ≤ c && c ≤ '9'))

/-- JavaScript truthiness of a JSON value. -/
def jsTruthy : JValue → Bool
  | JValue.jnull => false
  | JValue.jbool b => b
  | JValue.jnum s => !jnumIsZero s
  | JValue.jstr s => s != ""
  | JValue.jarr _ => true
  | JValue.jobj _ => true

/-- Object property lookup with `JSON.parse`'s duplicate-key semantics
(the last occurrence of the key wins). -/
def lookupField (fs : List (String × JValue)) (key : String) : Option JValue :=
  (fs.reverse.find? (fun p => p.1 == key)).map (fun p => p.2)

/-- A JavaScript property read `v[key]`: throws on `null`, is `undefined`
on non-objects, looks up the field on objects. -/
def jsGet : JValue → String → Except Unit (Option JValue)
  | JValue.jnull, _ => Except.error ()
  | JValue.jobj fs, key => Except.ok (lookupField fs key)
  | _, _ => Except.ok none

/-- Strict equality of a (possibly `undefined`) property value with a
string literal, as in `m.role === "assistant"`. -/
def isStrVal (v : Option JValue) (s : String) : Bool :=
  match v with
  | some (JValue.jstr t) => t == s
  | _ => false

mutual

/-- Stringification used by `Array.prototype.join`: `null` becomes the
empty string, arrays join their elements with commas, objects print as
`[object Object]`. -/
def jvToStr : JValue → String
  | JValue.jnull => ""
  | JValue.jbool b => if b then "true" else "false"
  | JValue.jnum s => s
  | JValue.jstr s => s
  | JValue.jarr xs => jvListToStr xs
  | JValue.jobj _ => "[object Object]"

def jvListToStr : List JValue → String
  | [] => ""
  | [x] => jvToStr x
  | x :: xs => jvToStr x ++ "," ++ jvListToStr xs

end

/-- `messages.findLast((m) => m.role === "assistant")`, scanning the
reversed list; a throwing predicate evaluation aborts the scan. -/
def findLastAssistantRev : List JValue → Except Unit (Option JValue)
  | [] => Except.ok none
  | m :: rest =>
    match jsGet m "role" with
    | Except.error e => Except.error e
    | Except.ok r =>
      if isStrVal r "assistant" then Except.ok (some m)
      else findLastAssistantRev rest

def findLastAssistant (ms : List JValue) : Except Unit (Option JValue) :=
  findLastAssistantRev ms.reverse

/-- `content.filter((c) => c.type === "text")`; the predicate runs left to
right and a property read on `null` throws. -/
def filterTextContent : List JValue → Except Unit (List JValue)
  | [] => Except.ok []
  | c :: rest =>
    match jsGet c "type" with
    | Except.error e => Except.error e
    | Except.ok t =>
      match filterTextContent rest with
      | Except.error e => Except.error e
      | Except.ok r => Except.ok (if isStrVal t "text" then c :: r else r)

/-- `.map((c) => c.text)` over the filtered entries. -/
def mapTextField : List JValue → Except Unit (List (Option JValue))
  | [] => Except.ok []
  | c :: rest =>
    match jsGet c "text" with
    | Except.error e => Except.error e
    | Except.ok t =>
      match mapTextField rest with
      | Except.error e => Except.error e
      | Except.ok r => Except.ok (t :: r)

/-- `.join("\n")` over the mapped `c.text` values. -/
def joinTexts (ts : List (Option JValue)) : String :=
  joinWithNewline (ts.map (fun t => (t.map jvToStr).getD ""))

/-- The extraction block, lines 154-168: result `Except.error ()` is a
thrown `TypeError` (caught by the inner `catch`), `Except.ok none` is one
of the `summaryText = result.text` fallthrough branches, and
`Except.ok (some s)` the successfully joined summary. -/
def extractSummary (json : JValue) : Except Unit (Option String) :=
  match jsGet json "messages" with
  | Except.error e => Except.error e
  | Except.ok msgsOpt =>
    match msgsOpt with
    | some (JValue.jarr ms) =>
      match findLastAssistant ms with
      | Except.error e => Except.error e
      | Except.ok none => Except.ok none
      | Except.ok (some msg) =>
        match jsGet msg "content" with
        | Except.error e => Except.error e
        | Except.ok none => Except.ok none
        | Except.ok (some c) =>
          match c with
          | JValue.jarr cs =>
            match filterTextContent cs with
            | Except.error e => Except.error e
            | Except.ok filtered =>
              match mapTextField filtered with
              | Except.error e => Except.error e
              | Except.ok ts => Except.ok (some (joinTexts ts))
          | other =>
            if jsTruthy other then Except.error () else Except.ok none
    | _ => Except.ok none

/-- The whole normalisation step, lines 149-172: parse the raw text as
JSON; on a parse failure, a thrown `TypeError` during extraction, or a
missing usable assistant message, fall back to the raw text. -/
def normalize (rawText : String) : String :=
  match parseJson rawText with
  | none => rawText
  | some json =>
    match extractSummary json with
    | Except.error _ => rawText
    | Except.ok none => rawText
    | Except.ok (some s) => s

/-! ## Delegation invoker (src/index.ts lines 91-147)

The promise body is event-driven.  We model one invocation as a fold of
`stepEvent` over the list of asynchronous events delivered before the
`await` resumes.  The promise settles at most once (`settle` is a no-op
once `settled` is filled); the abort listener is registered `once : true`
and removed on `close`; `child.kill()` is recorded in `killed`; the
`signal.aborted` flag survives independently of the listener and feeds the
post-await `if (signal?.aborted) throw` check in `outcomeOf`.
-/

/-- How the promise of lines 91-143 settled: `resolved` by the zero-exit
close handler, `rejectedAbort` by the abort listener (line 136, message
`"Operation aborted"`), `rejectedError` by the error handler or a non-zero
exit. -/
inductive Settled where
  | resolved (text : String)
  | rejectedAbort
  | rejectedError (msg : String)
deriving DecidableEq

structure InvokerState where
  stdoutBuf : String
  stderrBuf : String
  settled : Option Settled
  signalAborted : Bool
  listenerActive : Bool
  killed : Bool
deriving DecidableEq

def initState : InvokerState :=
  { stdoutBuf := "", stderrBuf := "", settled := none,
    signalAborted := false, listenerActive := true, killed := false }

/-- A promise settles only once. -/
def settle (st : InvokerState) (r : Settled) : InvokerState :=
  match st.settled with
  | some _ => st
  | none => { st with settled := some r }

/-- The asynchronous events a subprocess run can deliver before the
`await` resumes: stdout/stderr `data` chunks, the child's `error` event,
activation of the caller's abort signal, and the `close` event. -/
inductive ProcEvent where
  | dataOut (s : String)
  | dataErr (s : String)
  | spawnErr (msg : String)
  | abortSignal
  | closeEv (code : Int)
deriving DecidableEq

def isDataEvent : ProcEvent → Bool
  | ProcEvent.dataOut _ => true
  | ProcEvent.dataErr _ => true
  | _ => false

/-- One event handled exactly as the listeners of lines 112-142 do. -/
def stepEvent (st : InvokerState) (e : ProcEvent) : InvokerState :=
  match e with
  | ProcEvent.dataOut s => { st with stdoutBuf := st.stdoutBuf ++ s }
  | ProcEvent.dataErr s => { st with stderrBuf := st.stderrBuf ++ s }
  | ProcEvent.spawnErr msg => settle st (Settled.rejectedError msg)
  | ProcEvent.abortSignal =>
    if st.listenerActive then
      settle { st with signalAborted := true, listenerActive := false, killed := true }
        Settled.rejectedAbort
    else
      { st with signalAborted := true }
  | ProcEvent.closeEv code =>
    let st2 := settle st
      (if code = 0 then Settled.resolved (trimStr st.stdoutBuf)
       else Settled.rejectedError
         ("pi subprocess failed (" ++ toString code ++ "): " ++ st.stderrBuf))
    { st2 with listenerActive := false }

/-- The outcome taxonomy of the spec's `DelegationOutcome`. -/
inductive DelegationOutcome where
  | success (rawText : String)
  | processError (message : String)
  | cancelled
deriving DecidableEq

/-- What the `await` of line 91 produces: `none` when the promise never
settled (still pending); a rejection with the abort marker or a resolution
observed with `signal.aborted` set (lines 145-147) is a cancellation, any
other rejection a process error, and a clean resolution a success. -/
def outcomeOf (st : InvokerState) : Option DelegationOutcome :=
  match st.settled with
  | none => none
  | some Settled.rejectedAbort => some DelegationOutcome.cancelled
  | some (Settled.rejectedError m) => some (DelegationOutcome.processError m)
  | some (Settled.resolved t) =>
    some (if st.signalAborted then DelegationOutcome.cancelled
          else DelegationOutcome.success t)

def runInvoker (events : List ProcEvent) : Option DelegationOutcome :=
  outcomeOf (events.foldl stepEvent initState)

/-- Accumulated stdout of the data events of a trace, in order. -/
def outAcc : List ProcEvent → String
  | [] => ""
  | ProcEvent.dataOut s :: es => s ++ outAcc es
  | _ :: es => outAcc es

/-- Accumulated stderr of the data events of a trace, in order. -/
def errAcc : List ProcEvent → String
  | [] => ""
  | ProcEvent.dataErr s :: es => s ++ errAcc es
  | _ :: es => errAcc es

/-! ## Read router (overridden `execute`, src/index.ts lines 65-193) -/

/-- The caller-visible result of one `execute` call: an unchanged
passthrough to `localRead.execute` (line 75 and 82), a delegated
`ReadResult` (content blocks plus the `summaryModel` metadata, lines
174-185), or a thrown error with its `isToolError` mark (lines 186-192).
`α` is the opaque result type of the direct-read collaborator. -/
inductive RouteResult (α : Type) where
  | passthrough (direct : α)
  | delegated (content : List String) (summaryModel : String)
  | toolError (message : String) (isToolError : Bool)

/-- The overridden `execute`, given the direct-read collaborator's result
`direct` and the subprocess event trace `events`; `none` models an
invocation still pending on a promise that never settles. -/
def routeExecute {α : Type} (direct : α) (ctx : ExecutionContext) (path : String)
    (events : List ProcEvent) : Option (RouteResult α) :=
  if isGlm4_7 ctx then
    match detectImageMimeType (resolvePath ctx.cwd path) with
    | none => some (RouteResult.passthrough direct)
    | some _ =>
      match runInvoker events with
      | none => none
      | some (DelegationOutcome.success raw) =>
        some (RouteResult.delegated
          ["[Image analyzed with glm-4.6v]\n\n" ++ normalize raw] "glm-4.6v")
      | some (DelegationOutcome.processError msg) =>
        some (RouteResult.toolError
          ("Image analysis failed with glm-4.6v: " ++ msg ++
            ". The image may not be supported (e.g., animated GIFs) or there was a connection issue.")
          true)
      | some DelegationOutcome.cancelled =>
        some (RouteResult.toolError
          ("Image analysis failed with glm-4.6v: Operation aborted. The image may not be supported (e.g., animated GIFs) or there was a connection issue.")
          true)
  else some (RouteResult.passthrough direct)

/-! ## The `analyze-image` command handler (src/index.ts lines 197-308) -/

inductive NotifyLevel where
  | error
  | info
deriving DecidableEq

/-- The externally observable effects of one command invocation:
notifications in order, whether a subprocess was spawned (the delegation
invoker ran), and what was displayed in the editor surface. -/
structure CmdEffects where
  notifications : List (String × NotifyLevel)
  spawned : Bool
  displayed : Option String
deriving DecidableEq

/-- What happens inside `ctx.ui.custom` once the subprocess is spawned:
the loader is aborted, the child errors, or the child closes with an exit
code and accumulated output. -/
inductive CmdWorld where
  | cancelledW
  | spawnErrW (msg : String)
  | closedW (code : Int) (stdout stderr : String)
deriving DecidableEq

/-- The `analyze-image` handler.  On a failed or cancelled run
`done(null)` makes `result === null`, so line 302 notifies `"Cancelled"`
and line 307 (the editor display) is never reached; on success the
normalised summary of the untrimmed stdout is displayed. -/
def analyzeImageHandler (hasUI : Bool) (args : String) (cwd : String)
    (w : CmdWorld) : CmdEffects :=
  if !hasUI then
    { notifications := [("analyze-image requires interactive mode", NotifyLevel.error)],
      spawned := false, displayed := none }
  else
    let imagePath := trimStr args
    if imagePath = "" then
      { notifications := [("Usage: /analyze-image <path-to-image>", NotifyLevel.error)],
        spawned := false, displayed := none }
    else
      let absolutePath := resolvePath cwd imagePath
      match detectImageMimeType absolutePath with
      | none =>
        { notifications := [("Not a supported image file", NotifyLevel.error)],
          spawned := false, displayed := none }
      | some _ =>
        match w with
        | CmdWorld.cancelledW =>
          { notifications := [("Cancelled", NotifyLevel.info)],
            spawned := true, displayed := none }
        | CmdWorld.spawnErrW msg =>
          { notifications :=
              [("Analysis failed: " ++ msg, NotifyLevel.error),
               ("Cancelled", NotifyLevel.info)],
            spawned := true, displayed := none }
        | CmdWorld.closedW code out err =>
          if code ≠ 0 then
            { notifications :=
                [("Analysis failed: " ++ err, NotifyLevel.error),
                 ("Cancelled", NotifyLevel.info)],
              spawned := true, displayed := none }
          else
            { notifications := [], spawned := true, displayed := some (normalize out) }

/-! ## Concrete fixtures for witnesses and counterexamples -/

def ctxTrig : ExecutionContext := { modelId := some "glm-4.7", cwd := "/w" }

def ctxLong : ExecutionContext := { modelId := some "glm-4.7-long", cwd := "/w" }

def ctxOther : ExecutionContext := { modelId := some "gpt-4", cwd := "/w" }

/-- The stubbed delegation output of the spec's §8 test: one user message
with empty content, then one assistant message with a single text entry. -/
def rawStub : String :=
  "\x7b\"messages\":[\x7b\"role\":\"user\",\"content\":[]\x7d,\x7b\"role\":\"assistant\",\"content\":[\x7b\"type\":\"text\",\"text\":\"A red circle.\"\x7d]\x7d]\x7d"

/-- A structured response with a user message, then an assistant message
whose content mixes text and non-text entries. -/
def rawMsgs : String :=
  "\x7b\"messages\":[\x7b\"role\":\"user\"\x7d,\x7b\"role\":\"assistant\",\"content\":[\x7b\"type\":\"text\",\"text\":\"hi\"\x7d,\x7b\"type\":\"image\"\x7d,\x7b\"type\":\"text\",\"text\":\"there\"\x7d]\x7d]\x7d"

/-- The JSON value `rawMsgs` parses to. -/
def jMsgs : JValue :=
  JValue.jobj [("messages", JValue.jarr
    [JValue.jobj [("role", JValue.jstr "user")],
     JValue.jobj [("role", JValue.jstr "assistant"),
       ("content", JValue.jarr
         [JValue.jobj [("type", JValue.jstr "text"), ("text", JValue.jstr "hi")],
          JValue.jobj [("type", JValue.jstr "image")],
          JValue.jobj [("type", JValue.jstr "text"),
            ("text", JValue.jstr "there")]])]])]

/-- A non-empty raw text whose assistant message has an empty content
array, so the joined summary is empty. -/
def rawEmptyContent : String :=
  "\x7b\"messages\":[\x7b\"role\":\"assistant\",\"content\":[]\x7d]\x7d"

/-! ## Helper lemmas about the invoker state machine -/

theorem settle_killed (st : InvokerState) (r : Settled) :
    (settle st r).killed = st.killed := by
  unfold settle; split <;> simp

theorem settle_aborted (st : InvokerState) (r : Settled) :
    (settle st r).signalAborted = st.signalAborted := by
  unfold settle; split <;> simp

theorem settle_of_some (st : InvokerState) (r x : Settled) (h : st.settled = some x) :
    settle st r = st := by
  unfold settle; split <;> simp_all

theorem settle_of_none (st : InvokerState) (r : Settled) (h : st.settled = none) :
    settle st r = { st with settled := some r } := by
  unfold settle; split <;> simp_all

theorem stepEvent_settled (st : InvokerState) (e : ProcEvent) (r : Settled)
    (h : st.settled = some r) : (stepEvent st e).settled = some r := by
  cases e with
  | dataOut s => simpa [stepEvent] using h
  | dataErr s => simpa [stepEvent] using h
  | spawnErr msg => rw [stepEvent, settle_of_some st _ r h]; exact h
  | abortSignal =>
    by_cases hl : st.listenerActive = true
    · rw [stepEvent]; simp only [hl, if_true]
      rw [settle_of_some _ _ r (by simpa using h)]; simpa using h
    · rw [stepEvent]; simp only [hl, if_false]; simpa using h
  | closeEv code =>
    rw [stepEvent]; simp only
    rw [settle_of_some st _ r h]; exact h

theorem foldl_settled (es : List ProcEvent) (st : InvokerState) (r : Settled)
    (h : st.settled = some r) : (es.foldl stepEvent st).settled = some r := by
  induction es generalizing st with
  | nil => exact h
  | cons e es ih => exact ih _ (stepEvent_settled st e r h)

theorem stepEvent_killed (st : InvokerState) (e : ProcEvent)
    (h : st.killed = true) : (stepEvent st e).killed = true := by
  cases e with
  | dataOut s => simpa [stepEvent] using h
  | dataErr s => simpa [stepEvent] using h
  | spawnErr msg => rw [stepEvent, settle_killed]; exact h
  | abortSignal =>
    by_cases hl : st.listenerActive = true <;>
      simp [stepEvent, hl, settle_killed, h]
  | closeEv code => rw [stepEvent]; simp only; rw [settle_killed]; exact h

theorem foldl_killed (es : List ProcEvent) (st : InvokerState)
    (h : st.killed = true) : (es.foldl stepEvent st).killed = true := by
  induction es generalizing st with
  | nil => exact h
  | cons e es ih => exact ih _ (stepEvent_killed st e h)

theorem stepEvent_aborted (st : InvokerState) (e : ProcEvent)
    (h : st.signalAborted = true) : (stepEvent st e).signalAborted = true := by
  cases e with
  | dataOut s => simpa [stepEvent] using h
  | dataErr s => simpa [stepEvent] using h
  | spawnErr msg => rw [stepEvent, settle_aborted]; exact h
  | abortSignal =>
    by_cases hl : st.listenerActive = true <;>
      simp [stepEvent, hl, settle_aborted, h]
  | closeEv code => rw [stepEvent]; simp only; rw [settle_aborted]; exact h

theorem stepEvent_abort_sets (st : InvokerState) :
    (stepEvent st ProcEvent.abortSignal).signalAborted = true := by
  by_cases hl : st.listenerActive = true <;>
    simp [stepEvent, hl, settle_aborted]

theorem foldl_aborted (es : List ProcEvent) (st : InvokerState)
    (h : st.signalAborted = true) : (es.foldl stepEvent st).signalAborted = true := by
  induction es generalizing st with
  | nil => exact h
  | cons e es ih => exact ih _ (stepEvent_aborted st e h)

theorem foldl_aborted_of_mem (es : List ProcEvent) (st : InvokerState)
    (h : ProcEvent.abortSignal ∈ es) :
    (es.foldl stepEvent st).signalAborted = true := by
  induction es generalizing st with
  | nil => cases h
  | cons e es ih =>
    rcases List.mem_cons.mp h with he | he
    · subst he
      exact foldl_aborted es _ (stepEvent_abort_sets st)
    · exact ih _ he

theorem no_success_of_aborted (st : InvokerState) (h : st.signalAborted = true)
    (t : String) : outcomeOf st ≠ some (DelegationOutcome.success t) := by
  unfold outcomeOf
  rcases hs : st.settled with _ | s
  · simp
  · cases s <;> simp [h]

theorem foldl_data_events (pre : List ProcEvent)
    (h : ∀ e ∈ pre, isDataEvent e = true) (st : InvokerState) :
    pre.foldl stepEvent st =
      { st with stdoutBuf := st.stdoutBuf ++ outAcc pre,
                stderrBuf := st.stderrBuf ++ errAcc pre } := by
  induction pre generalizing st with
  | nil => simp [outAcc, errAcc, String.append_empty]
  | cons e pre ih =>
    have he : isDataEvent e = true := h e (by simp)
    have h2 : ∀ x ∈ pre, isDataEvent x = true := fun x hx => h x (by simp [hx])
    cases e with
    | dataOut s =>
      rw [List.foldl_cons, ih h2]
      simp [stepEvent, outAcc, errAcc, String.append_assoc]
    | dataErr s =>
      rw [List.foldl_cons, ih h2]
      simp [stepEvent, outAcc, errAcc, String.append_assoc]
    | spawnErr msg => simp [isDataEvent] at he
    | abortSignal => simp [isDataEvent] at he
    | closeEv code => simp [isDataEvent] at he

theorem invoker_abort_state (pre : List ProcEvent)
    (h : ∀ e ∈ pre, isDataEvent e = true) :
    (stepEvent (pre.foldl stepEvent initState) ProcEvent.abortSignal).settled
        = some Settled.rejectedAbort
    ∧ (stepEvent (pre.foldl stepEvent initState) ProcEvent.abortSignal).killed = true := by
  rw [foldl_data_events pre h initState]
  constructor <;> simp [stepEvent, settle, initState]

/-- Core of the cancellation guarantee: with only data events before it, an
abort firing before `close` kills the child and the run resolves
`cancelled`, whatever is delivered afterwards. -/
theorem runInvoker_abort_mid (pre post : List ProcEvent)
    (h : ∀ e ∈ pre, isDataEvent e = true) :
    ((pre ++ ProcEvent.abortSignal :: post).foldl stepEvent initState).killed = true
    ∧ runInvoker (pre ++ ProcEvent.abortSignal :: post)
        = some DelegationOutcome.cancelled := by
  obtain ⟨hset, hkil⟩ := invoker_abort_state pre h
  constructor
  · rw [List.foldl_append, List.foldl_cons]
    exact foldl_killed post _ hkil
  · unfold runInvoker
    rw [List.foldl_append, List.foldl_cons]
    have hs := foldl_settled post _ _ hset
    simp [outcomeOf, hs]

/-- The race: the process closes with exit code 0 and the abort signal
fires in the same tick, before the `await` resumes; the post-await
`signal?.aborted` check makes the cancellation win. -/
theorem runInvoker_close_then_abort (pre : List ProcEvent)
    (h : ∀ e ∈ pre, isDataEvent e = true) :
    runInvoker (pre ++ [ProcEvent.closeEv 0, ProcEvent.abortSignal])
      = some DelegationOutcome.cancelled := by
  unfold runInvoker
  rw [List.foldl_append, foldl_data_events pre h initState]
  simp [List.foldl, stepEvent, settle, outcomeOf, initState]

/-- Core of the exit-code policy: a run of data events followed by `close`
resolves per the exit code. -/
theorem runInvoker_close (pre : List ProcEvent) (code : Int)
    (h : ∀ e ∈ pre, isDataEvent e = true) :
    runInvoker (pre ++ [ProcEvent.closeEv code]) =
      some (if code = 0 then DelegationOutcome.success (trimStr (outAcc pre))
            else DelegationOutcome.processError
              ("pi subprocess failed (" ++ toString code ++ "): " ++ errAcc pre)) := by
  unfold runInvoker
  rw [List.foldl_append, foldl_data_events pre h initState]
  by_cases hc : code = 0 <;>
    simp [List.foldl, stepEvent, settle, outcomeOf, initState, hc,
      String.empty_append]

/-! ## Helper lemmas about the router -/

theorem routeExecute_of_success {α : Type} (direct : α) (ctx : ExecutionContext)
    (path : String) (events : List ProcEvent) (raw m : String)
    (h1 : isGlm4_7 ctx = true)
    (h2 : detectImageMimeType (resolvePath ctx.cwd path) = some m)
    (h3 : runInvoker events = some (DelegationOutcome.success raw)) :
    routeExecute direct ctx path events =
      some (RouteResult.delegated
        ["[Image analyzed with glm-4.6v]\n\n" ++ normalize raw] "glm-4.6v") := by
  simp [routeExecute, h1, h2, h3]

theorem routeExecute_of_processError {α : Type} (direct : α) (ctx : ExecutionContext)
    (path : String) (events : List ProcEvent) (msg m : String)
    (h1 : isGlm4_7 ctx = true)
    (h2 : detectImageMimeType (resolvePath ctx.cwd path) = some m)
    (h3 : runInvoker events = some (DelegationOutcome.processError msg)) :
    routeExecute direct ctx path events =
      some (RouteResult.toolError
        ("Image analysis failed with glm-4.6v: " ++ msg ++
          ". The image may not be supported (e.g., animated GIFs) or there was a connection issue.")
        true) := by
  simp [routeExecute, h1, h2, h3]

theorem routeExecute_of_cancelled {α : Type} (direct : α) (ctx : ExecutionContext)
    (path : String) (events : List ProcEvent) (m : String)
    (h1 : isGlm4_7 ctx = true)
    (h2 : detectImageMimeType (resolvePath ctx.cwd path) = some m)
    (h3 : runInvoker events = some DelegationOutcome.cancelled) :
    routeExecute direct ctx path events =
      some (RouteResult.toolError
        ("Image analysis failed with glm-4.6v: Operation aborted. The image may not be supported (e.g., animated GIFs) or there was a connection issue.")
        true) := by
  simp [routeExecute, h1, h2, h3]

/-! ## Helper lemmas about the normaliser -/

theorem findLastAssistantRev_spec (xs : List JValue) (msg : JValue)
    (h : findLastAssistantRev xs = Except.ok (some msg)) :
    ∃ l r v, xs = l ++ msg :: r
      ∧ jsGet msg "role" = Except.ok v ∧ isStrVal v "assistant" = true
      ∧ ∀ x ∈ l, ∃ u, jsGet x "role" = Except.ok u
          ∧ isStrVal u "assistant" = false := by
  induction xs with
  | nil => simp [findLastAssistantRev] at h
  | cons m rest ih =>
    rw [findLastAssistantRev] at h
    rcases hg : jsGet m "role" with e | v
    · simp only [hg] at h
      cases h
    · simp only [hg] at h
      by_cases hv : isStrVal v "assistant" = true
      · rw [if_pos hv] at h
        have hm : m = msg := by simpa using h
        subst hm
        exact ⟨[], rest, v, rfl, hg, hv, by simp⟩
      · rw [if_neg hv] at h
        obtain ⟨l, r, v2, hxs, hrole, hass, hl⟩ := ih h
        refine ⟨m :: l, r, v2, by rw [hxs]; rfl, hrole, hass, ?_⟩
        intro x hx
        rcases List.mem_cons.mp hx with hxm | hx2
        · subst hxm
          have hvf : isStrVal v "assistant" = false := by
            cases hb : isStrVal v "assistant" with
            | true => exact absurd hb hv
            | false => rfl
          exact ⟨v, hg, hvf⟩
        · exact hl x hx2

/-- `findLast` really picks the last assistant entry: the ones after it all
have a role marker that compares unequal to `"assistant"`. -/
theorem findLastAssistant_spec (ms : List JValue) (msg : JValue)
    (h : findLastAssistant ms = Except.ok (some msg)) :
    ∃ l r v, ms = l ++ msg :: r
      ∧ jsGet msg "role" = Except.ok v ∧ isStrVal v "assistant" = true
      ∧ ∀ x ∈ r, ∃ u, jsGet x "role" = Except.ok u
          ∧ isStrVal u "assistant" = false := by
  obtain ⟨l, r, v, hx, hrole, hass, hl⟩ := findLastAssistantRev_spec ms.reverse msg h
  refine ⟨r.reverse, l.reverse, v, ?_, hrole, hass,
    fun x hx2 => hl x (List.mem_reverse.mp hx2)⟩
  have h2 := congrArg List.reverse hx
  simpa [List.reverse_append] using h2

/-! ## Small general helpers -/

theorem mem_supportedExts_iff (e : String) :
    supportedExts.contains e = true ↔ e ∈ supportedExts := by
  simp [List.contains_iff_exists_mem_beq]

theorem supported_ne_empty (e : String) (h : e ∈ supportedExts) :
    (e != "") = true := by
  simp [supportedExts] at h
  rcases h with rfl | rfl | rfl | rfl | rfl <;> rfl

/-- Membership characterisation of the classifier (the emptiness guard is
redundant because the empty string is not a supported extension). -/
theorem detect_eq (p : String) :
    detectImageMimeType p =
      (if lowerStr ((jsSplitDot p).getLastD "") ∈ supportedExts then
        some ("image/" ++ (if lowerStr ((jsSplitDot p).getLastD "") = "jpg" then "jpeg"
          else lowerStr ((jsSplitDot p).getLastD "")))
       else none) := by
  by_cases hmem : lowerStr ((jsSplitDot p).getLastD "") ∈ supportedExts
  · have h1 := (mem_supportedExts_iff _).mpr hmem
    have h2 := supported_ne_empty _ hmem
    simp only [detectImageMimeType]
    rw [if_pos hmem, h2, h1]
    simp
  · have h1 : supportedExts.contains (lowerStr ((jsSplitDot p).getLastD "")) = false := by
      cases hb : supportedExts.contains (lowerStr ((jsSplitDot p).getLastD ""))
      · rfl
      · exact absurd ((mem_supportedExts_iff _).mp hb) hmem
    simp only [detectImageMimeType]
    rw [if_neg hmem, h1]
    simp

/-! ## The claims -/

/-- C1: for every read request and execution context, `route` performs
direct passthrough — returning the direct-read collaborator's result
unchanged, independently of whatever the delegation subprocess would do —
exactly when the active model is not one of the two trigger identifiers
(`glm-4.7`, `glm-4.7-long`) or the resolved path does not classify as an
image; with a trigger model and an image path the result is never a
passthrough, i.e. delegation happens if and only if both conditions
hold. -/
theorem C1_route_passthrough_iff {α : Type} (direct : α) (ctx : ExecutionContext)
    (path : String) (events : List ProcEvent) :
    routeExecute direct ctx path events = some (RouteResult.passthrough direct) ↔
      ¬(isGlm4_7 ctx = true
        ∧ (detectImageMimeType (resolvePath ctx.cwd path)).isSome = true) := by
  by_cases hg : isGlm4_7 ctx = true
  · rcases hd : detectImageMimeType (resolvePath ctx.cwd path) with _ | m
    · simp [routeExecute, hg, hd]
    · rcases ho : runInvoker events with _ | o
      · simp [routeExecute, hg, hd, ho]
      · cases o <;> simp [routeExecute, hg, hd, ho]
  · simp [routeExecute, hg]

theorem C1_witness :
    routeExecute (0 : Nat) ctxOther "pic.png" [] =
      some (RouteResult.passthrough 0) :=
  (C1_route_passthrough_iff 0 ctxOther "pic.png" []).mpr (by decide)

/-- C2: with a trigger model and an image path, a delegation ending in
`processError` or `cancelled` makes `route` fail the whole invocation
with an error marked as a tool error whose caller-facing message notes
the common causes (unsupported format, connectivity); it never returns a
delegated `ReadResult` and never silently falls back to passthrough. -/
theorem C2_route_failure {α : Type} (direct : α) (ctx : ExecutionContext)
    (path : String) (events : List ProcEvent)
    (h1 : isGlm4_7 ctx = true)
    (h2 : (detectImageMimeType (resolvePath ctx.cwd path)).isSome = true) :
    (∀ msg, runInvoker events = some (DelegationOutcome.processError msg) →
      routeExecute direct ctx path events =
        some (RouteResult.toolError
          ("Image analysis failed with glm-4.6v: " ++ msg ++
            ". The image may not be supported (e.g., animated GIFs) or there was a connection issue.")
          true))
    ∧ (runInvoker events = some DelegationOutcome.cancelled →
      routeExecute direct ctx path events =
        some (RouteResult.toolError
          ("Image analysis failed with glm-4.6v: Operation aborted. The image may not be supported (e.g., animated GIFs) or there was a connection issue.")
          true))
    ∧ ((runInvoker events = some DelegationOutcome.cancelled
        ∨ ∃ msg, runInvoker events = some (DelegationOutcome.processError msg)) →
      ∀ (content : List String) (model : String),
        routeExecute direct ctx path events ≠ some (RouteResult.delegated content model)
        ∧ routeExecute direct ctx path events ≠ some (RouteResult.passthrough direct)) := by
  obtain ⟨m, hm⟩ := Option.isSome_iff_exists.mp h2
  refine ⟨fun msg h3 => routeExecute_of_processError direct ctx path events msg m h1 hm h3,
    fun h3 => routeExecute_of_cancelled direct ctx path events m h1 hm h3, ?_⟩
  rintro (h3 | ⟨msg, h3⟩) content model
  · rw [routeExecute_of_cancelled direct ctx path events m h1 hm h3]
    constructor <;> simp
  · rw [routeExecute_of_processError direct ctx path events msg m h1 hm h3]
    constructor <;> simp

theorem C2_witness :
    routeExecute (0 : Nat) ctxTrig "pic.png"
        [ProcEvent.dataErr "model unavailable", ProcEvent.closeEv 1] =
      some (RouteResult.toolError
        "Image analysis failed with glm-4.6v: pi subprocess failed (1): model unavailable. The image may not be supported (e.g., animated GIFs) or there was a connection issue."
        true) :=
  (C2_route_failure 0 ctxTrig "pic.png"
      [ProcEvent.dataErr "model unavailable", ProcEvent.closeEv 1]
      (by decide) (by decide)).1
    "pi subprocess failed (1): model unavailable" (by rfl)

/-- C3: a cancellation signal delivered in the event trace means the run
never resolves `success`; when it fires before the close event (after only
data events, i.e. even with output fully buffered), the child is killed
and the run resolves `cancelled` whatever comes after; and in the race
where the process closes with exit code 0 in the same tick the abort
fires, `cancelled` deterministically wins. -/
theorem C3_cancellation :
    (∀ (events : List ProcEvent) (t : String), ProcEvent.abortSignal ∈ events →
      runInvoker events ≠ some (DelegationOutcome.success t))
    ∧ (∀ pre post : List ProcEvent, (∀ e ∈ pre, isDataEvent e = true) →
      ((pre ++ ProcEvent.abortSignal :: post).foldl stepEvent initState).killed = true
      ∧ runInvoker (pre ++ ProcEvent.abortSignal :: post)
          = some DelegationOutcome.cancelled)
    ∧ (∀ pre : List ProcEvent, (∀ e ∈ pre, isDataEvent e = true) →
      runInvoker (pre ++ [ProcEvent.closeEv 0, ProcEvent.abortSignal])
        = some DelegationOutcome.cancelled) := by
  refine ⟨fun events t h => ?_, runInvoker_abort_mid, runInvoker_close_then_abort⟩
  unfold runInvoker
  exact no_success_of_aborted _ (foldl_aborted_of_mem events initState h) t

theorem C3_witness :
    runInvoker [ProcEvent.dataOut "buffered", ProcEvent.abortSignal,
        ProcEvent.closeEv 0] = some DelegationOutcome.cancelled
    ∧ (([ProcEvent.dataOut "buffered", ProcEvent.abortSignal,
        ProcEvent.closeEv 0].foldl stepEvent initState).killed = true)
    ∧ runInvoker [ProcEvent.dataOut "x", ProcEvent.closeEv 0,
        ProcEvent.abortSignal] = some DelegationOutcome.cancelled
    ∧ runInvoker [ProcEvent.dataOut "y", ProcEvent.abortSignal]
        ≠ some (DelegationOutcome.success "y") := by
  have h2 := C3_cancellation.2.1 [ProcEvent.dataOut "buffered"]
    [ProcEvent.closeEv 0] (by decide)
  have h3 := C3_cancellation.2.2 [ProcEvent.dataOut "x"] (by decide)
  have h1 := C3_cancellation.1 [ProcEvent.dataOut "y", ProcEvent.abortSignal]
    "y" (by decide)
  exact ⟨h2.2, h2.1, h3, h1⟩

/-- C4: `normalize` is total and follows the documented algorithm: a parse
failure, a thrown extraction error, or a missing usable assistant message
falls back to the raw text verbatim; a parsed record whose `messages`
array has a last assistant entry with a content array yields the
newline-joined text entries; and `findLastAssistant` really returns the
last entry whose role is `"assistant"` (everything after it compares
unequal). -/
theorem C4_normalize_algorithm (raw : String) :
    (parseJson raw = none → normalize raw = raw)
    ∧ (∀ j, parseJson raw = some j → extractSummary j = Except.error () →
        normalize raw = raw)
    ∧ (∀ j, parseJson raw = some j → extractSummary j = Except.ok none →
        normalize raw = raw)
    ∧ (∀ j s, parseJson raw = some j → extractSummary j = Except.ok (some s) →
        normalize raw = s)
    ∧ (∀ ms msg, findLastAssistant ms = Except.ok (some msg) →
        ∃ l r v, ms = l ++ msg :: r
          ∧ jsGet msg "role" = Except.ok v ∧ isStrVal v "assistant" = true
          ∧ ∀ x ∈ r, ∃ u, jsGet x "role" = Except.ok u
              ∧ isStrVal u "assistant" = false)
    ∧ (∀ j ms msg cs filtered ts,
        parseJson raw = some j →
        jsGet j "messages" = Except.ok (some (JValue.jarr ms)) →
        findLastAssistant ms = Except.ok (some msg) →
        jsGet msg "content" = Except.ok (some (JValue.jarr cs)) →
        filterTextContent cs = Except.ok filtered →
        mapTextField filtered = Except.ok ts →
        normalize raw = joinTexts ts) := by
  refine ⟨fun h => by simp [normalize, h],
    fun j h1 h2 => by simp [normalize, h1, h2],
    fun j h1 h2 => by simp [normalize, h1, h2],
    fun j s h1 h2 => by simp [normalize, h1, h2],
    fun ms msg h => findLastAssistant_spec ms msg h, ?_⟩
  intro j ms msg cs filtered ts h1 h2 h3 h4 h5 h6
  have he : extractSummary j = Except.ok (some (joinTexts ts)) := by
    simp only [extractSummary, h2, h3, h4, h5, h6]
  simp [normalize, h1, he]

theorem C4_witness :
    normalize "plain string, not json" = "plain string, not json"
    ∧ normalize rawMsgs = "hi\nthere" :=
  ⟨(C4_normalize_algorithm "plain string, not json").1 (by rfl),
   (C4_normalize_algorithm rawMsgs).2.2.2.1 jMsgs "hi\nthere" (by rfl) (by rfl)⟩

/-- C5 counterexample: the claim says a path with an absent extension
always classifies as `NotImage`, but the code takes the last
dot-separated fragment — the whole path when no dot occurs — so the bare
path `"webp"`, which contains no dot and hence has no extension,
classifies as an image. -/
theorem C5_counterexample :
    detectImageMimeType "webp" = some "image/webp"
    ∧ ("webp".data.contains '.') = false
    ∧ specClassify "webp" = none := by
  refine ⟨by decide, by decide, by decide⟩

/-- C5 amended: for paths that do contain a dot the code agrees with the
spec's classifier, and in general `classify` returns `Image` with the
correct MIME type exactly when the last dot-separated fragment of the
path (the whole path when it has no dot), lowercased, is in the closed
set — `jpg` mapping to `image/jpeg` and the others to `image/<ext>`. -/
theorem C5_amended (p : String) :
    (2 ≤ (jsSplitDot p).length → detectImageMimeType p = specClassify p)
    ∧ (∀ m, detectImageMimeType p = some m ↔
        (lowerStr ((jsSplitDot p).getLastD "") ∈ supportedExts
          ∧ m = "image/" ++
              (if lowerStr ((jsSplitDot p).getLastD "") = "jpg" then "jpeg"
               else lowerStr ((jsSplitDot p).getLastD "")))) := by
  constructor
  · intro h
    simp [detectImageMimeType, specClassify, h]
  · intro m
    rw [detect_eq p]
    by_cases hmem : lowerStr ((jsSplitDot p).getLastD "") ∈ supportedExts
    · rw [if_pos hmem]
      constructor
      · intro hEq
        exact ⟨hmem, (Option.some.inj hEq).symm⟩
      · rintro ⟨h2, rfl⟩
        rfl
    · rw [if_neg hmem]
      constructor
      · intro hEq
        cases hEq
      · rintro ⟨h2, h3⟩
        exact absurd h2 hmem

theorem C5_witness :
    detectImageMimeType "a.JPG" = specClassify "a.JPG"
    ∧ detectImageMimeType "a.JPG" = some "image/jpeg" :=
  ⟨(C5_amended "a.JPG").1 (by decide), by decide⟩

/-- C6: with a trigger model, an image path, and a delegation resolving
`success raw`, `route` returns a `ReadResult` whose single text block is
`"[Image analyzed with glm-4.6v]"` followed by two newlines and the
normalised summary, with the secondary model recorded in the metadata. -/
theorem C6_route_success {α : Type} (direct : α) (ctx : ExecutionContext)
    (path : String) (events : List ProcEvent) (raw : String)
    (h1 : isGlm4_7 ctx = true)
    (h2 : (detectImageMimeType (resolvePath ctx.cwd path)).isSome = true)
    (h3 : runInvoker events = some (DelegationOutcome.success raw)) :
    routeExecute direct ctx path events =
      some (RouteResult.delegated
        ["[Image analyzed with glm-4.6v]\n\n" ++ normalize raw] "glm-4.6v") := by
  obtain ⟨m, hm⟩ := Option.isSome_iff_exists.mp h2
  exact routeExecute_of_success direct ctx path events raw m h1 hm h3

theorem C6_witness :
    routeExecute (0 : Nat) ctxTrig "pic.png"
        [ProcEvent.dataOut rawStub, ProcEvent.closeEv 0] =
      some (RouteResult.delegated
        ["[Image analyzed with glm-4.6v]\n\nA red circle."] "glm-4.6v")
    ∧ endsWithStr "[Image analyzed with glm-4.6v]\n\nA red circle."
        "A red circle." = true := by
  refine ⟨?_, by decide⟩
  have h := C6_route_success (0 : Nat) ctxTrig "pic.png"
    [ProcEvent.dataOut rawStub, ProcEvent.closeEv 0] rawStub
    (by decide) (by decide) (by rfl)
  rw [h]
  rfl

/-- C7: a run of data events followed by `close` with a non-zero exit
code resolves `processError` with a message containing the exit code and
the accumulated stderr, and with a trigger model and image path `route`
surfaces it as a tool-level error rather than a `ReadResult`; a zero exit
code with no prior cancellation resolves `success` with the trimmed
accumulated stdout. -/
theorem C7_invoker_exit (pre : List ProcEvent) (code : Int)
    (h : ∀ e ∈ pre, isDataEvent e = true) :
    (code ≠ 0 → runInvoker (pre ++ [ProcEvent.closeEv code]) =
      some (DelegationOutcome.processError
        ("pi subprocess failed (" ++ toString code ++ "): " ++ errAcc pre)))
    ∧ (code = 0 → runInvoker (pre ++ [ProcEvent.closeEv code]) =
      some (DelegationOutcome.success (trimStr (outAcc pre))))
    ∧ (∀ {α : Type} (direct : α) (ctx : ExecutionContext) (path m : String),
        code ≠ 0 → isGlm4_7 ctx = true →
        detectImageMimeType (resolvePath ctx.cwd path) = some m →
        routeExecute direct ctx path (pre ++ [ProcEvent.closeEv code]) =
          some (RouteResult.toolError
            ("Image analysis failed with glm-4.6v: " ++
              ("pi subprocess failed (" ++ toString code ++ "): " ++ errAcc pre) ++
              ". The image may not be supported (e.g., animated GIFs) or there was a connection issue.")
            true)) := by
  have hc := runInvoker_close pre code h
  refine ⟨fun hnz => ?_, fun hz => ?_, fun direct ctx path m hnz h1 h2 => ?_⟩
  · rw [hc, if_neg hnz]
  · rw [hc, if_pos hz]
  · exact routeExecute_of_processError direct ctx path _ _ m h1 h2
      (by rw [hc, if_neg hnz])

theorem C7_witness :
    runInvoker [ProcEvent.dataErr "model unavailable", ProcEvent.closeEv 1] =
      some (DelegationOutcome.processError
        "pi subprocess failed (1): model unavailable")
    ∧ runInvoker [ProcEvent.dataOut " out ", ProcEvent.closeEv 0] =
      some (DelegationOutcome.success "out") := by
  constructor
  · exact (C7_invoker_exit [ProcEvent.dataErr "model unavailable"] 1
      (by decide)).1 (by decide)
  · exact (C7_invoker_exit [ProcEvent.dataOut " out "] 0 (by decide)).2.1 (by rfl)

/-- C8 counterexample: the raw text is non-empty, parses, and has a last
assistant message whose content array holds no text entries, so the
normalised summary is the empty string — refuting both "always non-empty
on Success" and "non-empty whenever the raw text is non-empty". -/
theorem C8_counterexample :
    normalize rawEmptyContent = "" ∧ rawEmptyContent ≠ "" := by
  exact ⟨by rfl, by decide⟩

/-- C8 amended: the normalised summary is non-empty whenever the raw text
is non-empty and the summary is not produced by joining the text entries
of an extracted assistant message (i.e. on every raw-text fallback path);
a successful extraction can produce an empty summary. -/
theorem C8_amended (raw : String) (h1 : raw ≠ "")
    (h2 : ∀ j s, parseJson raw = some j → extractSummary j ≠ Except.ok (some s)) :
    normalize raw ≠ "" := by
  rcases hp : parseJson raw with _ | j
  · simpa [normalize, hp] using h1
  · rcases he : extractSummary j with e | o
    · simpa [normalize, hp, he] using h1
    · rcases o with _ | s
      · simpa [normalize, hp, he] using h1
      · exact absurd he (h2 j s hp)

theorem C8_witness : normalize "hello" ≠ "" := by
  apply C8_amended "hello" (by decide)
  intro j s hj
  rw [show parseJson "hello" = none from rfl] at hj
  cases hj

/-- C9: invoked interactively with empty (all-whitespace) argument text,
the manual command surfaces the usage error and spawns no subprocess, for
every possible subprocess world; on cancellation of an in-progress
analysis it notifies `"Cancelled"` at info level and displays nothing. -/
theorem C9_command (cwd args : String) (w : CmdWorld) :
    (trimStr args = "" →
      analyzeImageHandler true args cwd w =
        { notifications := [("Usage: /analyze-image <path-to-image>", NotifyLevel.error)],
          spawned := false, displayed := none })
    ∧ (trimStr args ≠ "" →
      (detectImageMimeType (resolvePath cwd (trimStr args))).isSome = true →
      analyzeImageHandler true args cwd CmdWorld.cancelledW =
        { notifications := [("Cancelled", NotifyLevel.info)],
          spawned := true, displayed := none }) := by
  constructor
  · intro h
    simp [analyzeImageHandler, h]
  · intro h1 h2
    obtain ⟨m, hm⟩ := Option.isSome_iff_exists.mp h2
    simp [analyzeImageHandler, h1, hm]

theorem C9_witness :
    analyzeImageHandler true "   " "/w" CmdWorld.cancelledW =
      { notifications := [("Usage: /analyze-image <path-to-image>", NotifyLevel.error)],
        spawned := false, displayed := none }
    ∧ analyzeImageHandler true "img.png" "/w" CmdWorld.cancelledW =
      { notifications := [("Cancelled", NotifyLevel.info)],
        spawned := true, displayed := none } :=
  ⟨(C9_command "/w" "   " CmdWorld.cancelledW).1 (by rfl),
   (C9_command "/w" "img.png" CmdWorld.cancelledW).2 (by decide) (by decide)⟩

/-- C10 (implicit): invoked interactively with a non-empty trimmed path
argument that does not classify as a supported image, the manual command
notifies `"Not a supported image file"` as an error, spawns no subprocess
whatever the subprocess world, and displays nothing; under the same
classification condition the automatic router (with a trigger model and
the same working directory) passes the read through — both paths share
the extension-based gate `detectImageMimeType ∘ resolvePath`. -/
theorem C10_command_gate (cwd args : String) (w : CmdWorld)
    (h1 : trimStr args ≠ "")
    (h2 : detectImageMimeType (resolvePath cwd (trimStr args)) = none) :
    analyzeImageHandler true args cwd w =
      { notifications := [("Not a supported image file", NotifyLevel.error)],
        spawned := false, displayed := none }
    ∧ (∀ {α : Type} (direct : α) (ctx : ExecutionContext)
        (events : List ProcEvent),
        isGlm4_7 ctx = true → ctx.cwd = cwd →
        routeExecute direct ctx (trimStr args) events
          = some (RouteResult.passthrough direct)) := by
  constructor
  · simp [analyzeImageHandler, h1, h2]
  · intro α direct ctx events hg hc
    simp [routeExecute, hg, hc, h2]

theorem C10_witness :
    analyzeImageHandler true " notes.txt " "/w" CmdWorld.cancelledW =
      { notifications := [("Not a supported image file", NotifyLevel.error)],
        spawned := false, displayed := none }
    ∧ routeExecute (0 : Nat) ctxLong (trimStr " notes.txt ") [] =
      some (RouteResult.passthrough 0) := by
  have h := C10_command_gate "/w" " notes.txt " CmdWorld.cancelledW
    (by decide) (by decide)
  exact ⟨h.1, h.2 0 ctxLong [] (by decide) (by decide)⟩

end PiGlm

